import Mathlib

/-!
Shallow embedding of the token verification and policy delegation engine of
team-carepay/traefik-jwt-plugin (src/jwt.go), together with theorems settling
the specification claims.

Go library primitives (crypto, base64url decoding, JSON unmarshalling, HTTP)
are modelled as explicit function parameters or as outcome data carried by the
inputs; the control flow, the data model and the error strings are translated
from src/jwt.go.
-/

namespace Jwt

/-- Byte strings (Go byte slices) as lists of naturals. -/
abbrev Bytes := List Nat

/-- big.Int SetBytes: big-endian bytes interpreted as a natural number. -/
def bytesToNat (bs : Bytes) : Nat := bs.foldl (fun acc b => acc * 256 + b) 0

/-- Go conversion int(x.Uint64()): the low 64 bits reinterpreted as a signed
64-bit integer (jwt.go:191 builds the RSA exponent this way). -/
def goIntOfUint64 (v : Nat) : Int :=
  let u : Nat := v % (2 ^ 64)
  if u < 2 ^ 63 then (u : Int) else (u : Int) - 2 ^ 64

/-- rsa.PublicKey. -/
structure RSAPub where
  n : Nat
  e : Int
deriving DecidableEq, Repr

/-- ecdsa.PublicKey coordinates (the curve is not validated by the plugin). -/
structure ECPub where
  x : Nat
  y : Nat
deriving DecidableEq, Repr

/-- The dynamic key material held in the keys map (Go interface values).
The source stores POINTER key types for PEM anchors (x509 parsing returns
pointers) but VALUE structs for JWKS anchors (jwt.go:191 and jwt.go:203), and
the verifiers type-assert on the pointer types; the embedding therefore keeps
pointer and value structs distinct. -/
inductive KeyMaterial
  | symmetric (k : Bytes)
  | rsaPtr (k : RSAPub)
  | ecPtr (k : ECPub)
  | rsaVal (k : RSAPub)
  | ecVal (k : ECPub)
deriving DecidableEq, Repr

/-- True for the shapes a JWKS anchor can produce: a raw byte string or a
non-pointer (value) struct. -/
def KeyMaterial.nonPointer : KeyMaterial → Bool
  | .symmetric _ => true
  | .rsaVal _ => true
  | .ecVal _ => true
  | .rsaPtr _ => false
  | .ecPtr _ => false

def KeyMaterial.isRsaPtr : KeyMaterial → Bool
  | .rsaPtr _ => true
  | _ => false

/-- crypto.Hash values used by the algorithm table. -/
inductive HashAlg
  | sha256
  | sha384
  | sha512
deriving DecidableEq, Repr

/-- Outcome of a Go call that returns error, with run-time panics kept
apart: a failed bare type assertion aborts instead of returning an error. -/
inductive VerifyResult
  | ok
  | err (msg : String)
  | panic (msg : String)
deriving DecidableEq, Repr

def VerifyResult.isPanic : VerifyResult → Bool
  | .panic _ => true
  | _ => false

/-- The cryptographic primitives taken from the Go standard library,
abstracted as parameters: the plugin only dispatches to them, so the claims
are settled for every choice of primitives. -/
structure CryptoOps where
  hashSum : HashAlg → Bytes → Bytes
  hmacSum : HashAlg → Bytes → Bytes → Bytes
  rsaVerifyPKCS1v15 : RSAPub → HashAlg → Bytes → Bytes → Bool
  rsaVerifyPSS : RSAPub → HashAlg → Bytes → Bytes → Bool
  ecdsaVerify : ECPub → Bytes → Nat → Nat → Bool

/-- A concrete instantiation of the primitives, used to evaluate the
engine on explicit inputs. -/
def trivOps : CryptoOps :=
  ⟨fun _ b => b, fun _ k m => k ++ m,
   fun _ _ _ _ => false, fun _ _ _ _ => false, fun _ _ _ _ => false⟩

/-- jwt.go:414 verifyHMAC: comma-ok assertion to a byte slice, then an
HMAC over the payload compared against the signature. -/
def verifyHMAC (ops : CryptoOps) (key : KeyMaterial) (hash : HashAlg)
    (payload signature : Bytes) : VerifyResult :=
  match key with
  | .symmetric macKey =>
      if signature = ops.hmacSum hash macKey payload then .ok
      else .err "token verification failed (HMAC)"
  | _ => .err "incorrect symmetric key type"

/-- jwt.go:440 verifyRSAPKCS. The source performs a BARE type assertion
to a pointer RSA key, so any other key material panics at run time. -/
def verifyRSAPKCS (ops : CryptoOps) (key : KeyMaterial) (hash : HashAlg)
    (digest signature : Bytes) : VerifyResult :=
  match key with
  | .rsaPtr k =>
      if ops.rsaVerifyPKCS1v15 k hash digest signature then .ok
      else .err "token verification failed (RSAPKCS)"
  | _ => .panic "interface conversion"

/-- jwt.go:448 verifyRSAPSS: comma-ok assertion, mismatch is an error. -/
def verifyRSAPSS (ops : CryptoOps) (key : KeyMaterial) (hash : HashAlg)
    (digest signature : Bytes) : VerifyResult :=
  match key with
  | .rsaPtr k =>
      if ops.rsaVerifyPSS k hash digest signature then .ok
      else .err "token verification failed (RSAPSS)"
  | _ => .err "incorrect public key type"

/-- jwt.go:459 verifyECDSA: comma-ok assertion, raw signature split exactly
in half into the big-endian integers r and s. -/
def verifyECDSA (ops : CryptoOps) (key : KeyMaterial) (_hash : HashAlg)
    (digest signature : Bytes) : VerifyResult :=
  match key with
  | .ecPtr k =>
      let n := signature.length / 2
      if ops.ecdsaVerify k digest (bytesToNat (signature.take n)) (bytesToNat (signature.drop n))
      then .ok
      else .err "token verification failed (ECDSA)"
  | _ => .err "incorrect public key type"

/-- jwt.go:429 verifyAsymmetric: hash the payload, verify the digest (the
hash Write never fails, so that error branch is vacuous). -/
def verifyAsymmetric
    (verify : CryptoOps → KeyMaterial → HashAlg → Bytes → Bytes → VerifyResult)
    (ops : CryptoOps) (key : KeyMaterial) (hash : HashAlg)
    (payload signature : Bytes) : VerifyResult :=
  verify ops key hash (ops.hashSum hash payload) signature

/-- One entry of the algorithm table. -/
structure TokenAlgorithm where
  hash : HashAlg
  verify : CryptoOps → KeyMaterial → HashAlg → Bytes → Bytes → VerifyResult

/-- jwt.go:398 tokenAlgorithms: the fixed 12-entry table mapping the alg
header string to hash and verification function. -/
def tokenAlgorithms : String → Option TokenAlgorithm
  | "RS256" => some ⟨.sha256, verifyAsymmetric verifyRSAPKCS⟩
  | "RS384" => some ⟨.sha384, verifyAsymmetric verifyRSAPKCS⟩
  | "RS512" => some ⟨.sha512, verifyAsymmetric verifyRSAPKCS⟩
  | "PS256" => some ⟨.sha256, verifyAsymmetric verifyRSAPSS⟩
  | "PS384" => some ⟨.sha384, verifyAsymmetric verifyRSAPSS⟩
  | "PS512" => some ⟨.sha512, verifyAsymmetric verifyRSAPSS⟩
  | "ES256" => some ⟨.sha256, verifyAsymmetric verifyECDSA⟩
  | "ES384" => some ⟨.sha384, verifyAsymmetric verifyECDSA⟩
  | "ES512" => some ⟨.sha512, verifyAsymmetric verifyECDSA⟩
  | "HS256" => some ⟨.sha256, verifyHMAC⟩
  | "HS384" => some ⟨.sha384, verifyHMAC⟩
  | "HS512" => some ⟨.sha512, verifyHMAC⟩
  | _ => none

/-- The twelve alg names of the fixed table. -/
def algTableNames : List String :=
  ["RS256", "RS384", "RS512", "PS256", "PS384", "PS512",
   "ES256", "ES384", "ES512", "HS256", "HS384", "HS512"]

/-- JSON values as produced by encoding/json unmarshalling into dynamic
values. Numbers are abstracted as integers: no claim computes with them. -/
inductive Json
  | null
  | bool (b : Bool)
  | num (n : Int)
  | str (s : String)
  | arr (elems : List Json)
  | obj (fields : List (String × Json))

/-- The decoded token payload, a JSON object (Go map into dynamic values). -/
abbrev PayloadMap := List (String × Json)

/-- Go map indexing on the payload. -/
def payloadLookup (payload : PayloadMap) (field : String) : Option Json :=
  (payload.find? (fun p => p.1 == field)).map Prod.snd

/-- jwt.go:64 JWTHeader: a missing JSON field unmarshals to the zero value,
so an absent kid is the empty string and an absent crit the empty list. -/
structure JWTHeader where
  alg : String
  kid : String
  typ : String
  cty : String
  crit : List String
deriving Repr

/-- jwt.go:72 JSONWebToken. Plaintext is the signing input: the byte range
of the original bearer value covering the first two dot-separated parts. -/
structure JSONWebToken where
  plaintext : Bytes
  signature : Bytes
  header : JWTHeader
  payload : PayloadMap

/-- jwt.go:79 supportedHeaderNames. -/
def supportedHeaderNames : List String := ["alg", "kid", "typ", "cty", "crit"]

/-- The crit loop at jwt.go:315: the first unsupported critical header. -/
def checkCrit : List String → Option String
  | [] => none
  | h :: rest => if supportedHeaderNames.contains h then checkCrit rest else some h

/-- The keys map from identifier to material. Modelled as an association
list with Go map semantics: overwrite on identifier collision, size counts
distinct identifiers. Iteration order of a Go map is unspecified; the list
order stands for the per-process order actually used. -/
abbrev KeyTable := List (String × KeyMaterial)

def KeyTable.insertKey (t : KeyTable) (kid : String) (v : KeyMaterial) : KeyTable :=
  if t.any (fun p => p.1 == kid) then
    t.map (fun p => if p.1 == kid then (kid, v) else p)
  else t ++ [(kid, v)]

def KeyTable.lookupKey (t : KeyTable) (kid : String) : Option KeyMaterial :=
  (t.find? (fun p => p.1 == kid)).map Prod.snd

/-- The fallback loop at jwt.go:332: try every key, return on the first
success, propagate a run-time panic, and report failure after the last. -/
def tryKeys (ops : CryptoOps) (a : TokenAlgorithm) (plaintext signature : Bytes) :
    List (String × KeyMaterial) → VerifyResult
  | [] => .err "token validation failed"
  | (_, key) :: rest =>
    match a.verify ops key a.hash plaintext signature with
    | .ok => .ok
    | .panic m => .panic m
    | .err _ => tryKeys ops a plaintext signature rest

/-- jwt.go:314 VerifyToken: crit check, algorithm lookup, algorithm pinning,
then key selection by kid with a try-every-key fallback. -/
def VerifyToken (ops : CryptoOps) (expectedAlg : String) (keys : KeyTable)
    (tok : JSONWebToken) : VerifyResult :=
  match checkCrit tok.header.crit with
  | some h => .err ("unsupported header: " ++ h)
  | none =>
    match tokenAlgorithms tok.header.alg with
    | none => .err ("unknown JWS algorithm: " ++ tok.header.alg)
    | some a =>
      if expectedAlg ≠ "" ∧ tok.header.alg ≠ expectedAlg then
        .err ("incorrect alg, expected " ++ expectedAlg ++ " got " ++ tok.header.alg)
      else
        match keys.lookupKey tok.header.kid with
        | some key => a.verify ops key a.hash tok.plaintext tok.signature
        | none => tryKeys ops a tok.plaintext tok.signature keys

/-- The branch condition at jwt.go:328: the try-every-key fallback runs
exactly when the kid (the empty string when absent from the header) is not
an identifier present in the keys map. -/
def usesFallback (keys : KeyTable) (tok : JSONWebToken) : Bool :=
  (keys.lookupKey tok.header.kid).isNone

/-- ASCII bytes of a character sequence. -/
def strBytes (cs : List Char) : Bytes := cs.map Char.toNat

/-- strings.Split on the period separator (jwt.go:283). -/
def splitOnDot : List Char → List (List Char)
  | [] => [[]]
  | c :: rest =>
    if c = '.' then [] :: splitOnDot rest
    else
      match splitOnDot rest with
      | [] => [[c]]
      | g :: gs => (c :: g) :: gs

/-- The characters of the bearer scheme marker stripped at jwt.go:279. -/
def bearerMarker : List Char := ['B', 'e', 'a', 'r', 'e', 'r', ' ']

/-- jwt.go:272 ExtractToken, over the first Authorization header value.
The base64url decoder and the JSON unmarshallers for header and payload are
library primitives passed as parameters. A missing header or scheme marker
yields no token (not an error). Plaintext is taken by byte offsets from the
original value: auth sliced from 7 to the combined part lengths plus 8. -/
def ExtractToken (decodeB64 : List Char → Except String Bytes)
    (parseHeader : Bytes → Except String JWTHeader)
    (parsePayload : Bytes → Except String PayloadMap)
    (auth? : Option (List Char)) : Except String (Option JSONWebToken) :=
  match auth? with
  | none => .ok none
  | some auth =>
    if auth.take 7 = bearerMarker then
      match splitOnDot (auth.drop 7) with
      | [p0, p1, p2] =>
        match decodeB64 p0 with
        | .error e => .error e
        | .ok headerBytes =>
          match decodeB64 p1 with
          | .error e => .error e
          | .ok payloadBytes =>
            match decodeB64 p2 with
            | .error e => .error e
            | .ok signature =>
              match parseHeader headerBytes with
              | .error e => .error e
              | .ok hdr =>
                match parsePayload payloadBytes with
                | .error e => .error e
                | .ok pay =>
                  .ok (some ⟨strBytes ((auth.take (p0.length + p1.length + 8)).drop 7),
                             signature, hdr, pay⟩)
      | _ => .error "invalid token format"
    else .ok none

/-- jwt.go:55 LogEvent. The Time field is filled from the ambient clock,
an external effect no claim mentions, and is left out of the model. -/
structure LogEvent where
  level : String
  msg : String
  sub : String
  remoteAddr : String
  url : String
deriving DecidableEq, Repr

/-- fmt.Sprint of a dynamic value read from the payload map (jwt.go:250).
A missing key or JSON null is the nil interface, printed as nil in angle
brackets; scalar renderings follow fmt; composite renderings are
abbreviated, no claim depends on them. -/
def fmtSprint : Option Json → String
  | none => "<nil>"
  | some Json.null => "<nil>"
  | some (Json.bool true) => "true"
  | some (Json.bool false) => "false"
  | some (Json.str s) => s
  | some (Json.num n) => toString n
  | some (Json.arr _) => "[...]"
  | some (Json.obj _) => "map[...]"

/-- The advisory log entry built at jwt.go:251. -/
def mkLogEvent (fieldName : String) (payload : PayloadMap)
    (remoteAddr url : String) : LogEvent :=
  ⟨"warning", "Missing JWT field " ++ fieldName,
   fmtSprint (payloadLookup payload "sub"), remoteAddr, url⟩

/-- The required-field loop at jwt.go:245: when required, return an error at
the first configured field absent from the payload; otherwise print one
advisory log entry per missing field and keep going. -/
def checkPayloadFields (fields : List String) (required : Bool)
    (payload : PayloadMap) (remoteAddr url : String) :
    Except String Unit × List LogEvent :=
  match fields with
  | [] => (.ok (), [])
  | f :: rest =>
    if (payloadLookup payload f).isSome then
      checkPayloadFields rest required payload remoteAddr url
    else if required then
      (.error ("payload missing required field " ++ f), [])
    else
      let r := checkPayloadFields rest required payload remoteAddr url
      (r.1, mkLogEvent f payload remoteAddr url :: r.2)

/-- Go bytes rendered as a string by the fmt s verb (jwt.go:371). -/
def stringOfBytes (bs : Bytes) : String := String.mk (bs.map Char.ofNat)

/-- Outcome of the http.Post call made by CheckOpa: a transport error, or a
response carrying a status code and the outcome of reading its body. -/
inductive HttpPostOutcome
  | netErr (msg : String)
  | resp (statusCode : Nat) (body : Except String Bytes)

/-- The external pieces CheckOpa interacts with: the POST outcome and the
JSON unmarshallers for the response object and for one raw fragment. -/
structure OpaEnv where
  post : HttpPostOutcome
  unmarshalResponse : Bytes → Except String (List (String × Bytes))
  unmarshalBool : Bytes → Except String Bool

/-- Raw fragment selected from the decoded response map. -/
def lookupRaw (result : List (String × Bytes)) (field : String) : Option Bytes :=
  (result.find? (fun p => p.1 == field)).map Prod.snd

/-- jwt.go:342 CheckOpa. The status code of the response is bound but never
inspected by the source, exactly as here. Indexing a missing allow field
yields a nil raw message, whose bool unmarshal fails. A decoded false is an
error carrying the whole raw body. Marshalling the request payload cannot
fail for this payload shape and has no failure branch in the model. -/
def CheckOpa (env : OpaEnv) (allowField : String) : Except String Unit :=
  match env.post with
  | .netErr m => .error m
  | .resp _statusCode body? =>
    match body? with
    | .error m => .error m
    | .ok body =>
      match env.unmarshalResponse body with
      | .error m => .error m
      | .ok result =>
        match lookupRaw result allowField with
        | none => .error "unexpected end of JSON input"
        | some raw =>
          match env.unmarshalBool raw with
          | .error m => .error m
          | .ok allow =>
            if allow = true then .ok () else .error (stringOfBytes body)

/-- PEM block types distinguished at jwt.go:155 and jwt.go:161. -/
inductive PemBlockType
  | certificate
  | publicKey
  | rsaPublicKey
  | other
deriving DecidableEq, Repr

/-- One JWKS entry (jwt.go:82 Key), with each base64url field carried as
the outcome of decoding it: the decoder is deterministic, so the outcome is
data of the input. Fields the resolver never reads are omitted. -/
structure JWKEntry where
  kid : String
  kty : String
  n : Except String Bytes
  e : Except String Bytes
  k : Except String Bytes
  x : Except String Bytes
  y : Except String Bytes

/-- Outcome of treating a non-PEM anchor as a JWKS URL (jwt.go:171): an
unparsable URL, a transport error, a body read error, a JSON unmarshal
error, or the decoded list of entries. -/
inductive JwksFetch
  | badUrl
  | getError
  | readError
  | unmarshalError
  | ok (entries : List JWKEntry)

def JwksFetch.failed : JwksFetch → Bool
  | .ok _ => false
  | _ => true

/-- One configured trust anchor, classified the way jwt.go:151 classifies
it: pem carries the decoded block type, whether trailing bytes follow the
block, and the outcomes of the x509 parses the source may run on it (the
certificate parse yielding the base64url subject key identifier and the
public key, and the PKIX public key parse); nonPem carries the JWKS fetch
outcome. -/
inductive Anchor
  | pem (blockType : PemBlockType) (restNonEmpty : Bool)
      (certParse : Except String (String × KeyMaterial))
      (pkixParse : Except String KeyMaterial)
  | nonPem (fetch : JwksFetch)

/-- The JWKS entry loop at jwt.go:179: RSA entries store a VALUE
rsa.PublicKey, EC entries a VALUE ecdsa.PublicKey, oct entries the raw
bytes; any base64url decode failure aborts the whole resolution. -/
def resolveJwksEntries (keys : KeyTable) : List JWKEntry → Except String KeyTable
  | [] => .ok keys
  | entry :: rest =>
    match entry.kty with
    | "RSA" =>
      match entry.n with
      | .error m => .error m
      | .ok nBytes =>
        match entry.e with
        | .error m => .error m
        | .ok eBytes =>
          resolveJwksEntries
            (keys.insertKey entry.kid
              (.rsaVal ⟨bytesToNat nBytes, goIntOfUint64 (bytesToNat eBytes)⟩)) rest
    | "EC" =>
      match entry.x with
      | .error m => .error m
      | .ok xBytes =>
        match entry.y with
        | .error m => .error m
        | .ok yBytes =>
          resolveJwksEntries
            (keys.insertKey entry.kid (.ecVal ⟨bytesToNat xBytes, bytesToNat yBytes⟩)) rest
    | "oct" =>
      match entry.k with
      | .error m => .error m
      | .ok kBytes => resolveJwksEntries (keys.insertKey entry.kid (.symmetric kBytes)) rest
    | _ => resolveJwksEntries keys rest

/-- The first base64url decode failure the JWKS entry loop hits for one
entry, in the order the source reads the fields: n then e for an RSA entry
(jwt.go:183-190), x then y for an EC entry (jwt.go:195-202), k for an oct
entry (jwt.go:207-210); an entry of any other type reads no field. -/
def entryDecodeFailure (entry : JWKEntry) : Option String :=
  if entry.kty = "RSA" then
    match entry.n with
    | .error m => some m
    | .ok _ =>
      match entry.e with
      | .error m => some m
      | .ok _ => none
  else if entry.kty = "EC" then
    match entry.x with
    | .error m => some m
    | .ok _ =>
      match entry.y with
      | .error m => some m
      | .ok _ => none
  else if entry.kty = "oct" then
    match entry.k with
    | .error m => some m
    | .ok _ => none
  else none

/-- One iteration of the anchor loop of getKeyFromCertOrJWK (jwt.go:150). -/
def resolveAnchor (keys : KeyTable) : Anchor → Except String KeyTable
  | .pem blockType restNonEmpty certParse pkixParse =>
    if restNonEmpty then .error "extra data after a PEM certificate block"
    else
      match blockType with
      | .certificate =>
        match certParse with
        | .error m => .error ("failed to parse a PEM certificate: " ++ m)
        | .ok skidAndKey => .ok (keys.insertKey skidAndKey.1 skidAndKey.2)
      | .publicKey =>
        match pkixParse with
        | .error m => .error ("failed to parse a PEM public key: " ++ m)
        | .ok key => .ok (keys.insertKey (toString keys.length) key)
      | .rsaPublicKey =>
        match pkixParse with
        | .error m => .error ("failed to parse a PEM public key: " ++ m)
        | .ok key => .ok (keys.insertKey (toString keys.length) key)
      | .other => .error "failed to extract a Key from the PEM certificate"
  | .nonPem fetch =>
    match fetch with
    | .ok entries => resolveJwksEntries keys entries
    | _ => .ok keys

/-- The anchor fold of getKeyFromCertOrJWK, threading the keys map. -/
def resolveAnchors (keys : KeyTable) : List Anchor → Except String KeyTable
  | [] => .ok keys
  | a :: rest =>
    match resolveAnchor keys a with
    | .error m => .error m
    | .ok keys2 => resolveAnchors keys2 rest

/-- jwt.go:148 getKeyFromCertOrJWK: resolve every anchor starting from the
empty table. -/
def getKeyFromCertOrJWK (anchors : List Anchor) : Except String KeyTable :=
  resolveAnchors [] anchors

/-- jwt.go:42 runtime configuration (the handler chain is external). -/
structure PluginConfig where
  opaUrl : String
  opaAllowField : String
  payloadFields : List String
  required : Bool
  keys : KeyTable
  alg : String
  iss : String
  aud : String

/-- The pieces of the inbound request CheckToken reads. -/
structure Request where
  authorization : Option (List Char)
  remoteAddr : String
  url : String

/-- jwt.go:233 CheckToken: extract, verify only when keys are configured,
check required payload fields (collecting advisory log lines), then consult
OPA when an endpoint is configured, also for an absent token. -/
def CheckToken (ops : CryptoOps)
    (decodeB64 : List Char → Except String Bytes)
    (parseHeader : Bytes → Except String JWTHeader)
    (parsePayload : Bytes → Except String PayloadMap)
    (cfg : PluginConfig) (env : OpaEnv) (req : Request) :
    VerifyResult × List LogEvent :=
  match ExtractToken decodeB64 parseHeader parsePayload req.authorization with
  | .error e => (.err e, [])
  | .ok tok? =>
    let step : VerifyResult × List LogEvent :=
      match tok? with
      | none => (.ok, [])
      | some tok =>
        match (if cfg.keys.length > 0 then VerifyToken ops cfg.alg cfg.keys tok else .ok) with
        | .err e => (.err e, [])
        | .panic m => (.panic m, [])
        | .ok =>
          match checkPayloadFields cfg.payloadFields cfg.required tok.payload
              req.remoteAddr req.url with
          | (.error e, logs) => (.err e, logs)
          | (.ok _, logs) => (.ok, logs)
    match step with
    | (.ok, logs) =>
      if cfg.opaUrl = "" then (.ok, logs)
      else
        match CheckOpa env cfg.opaAllowField with
        | .ok _ => (.ok, logs)
        | .error e => (.err e, logs)
    | other => other

/-- A JWKS anchor whose RSA entry has an undecodable modulus field. -/
def c2BadAnchor : Anchor :=
  .nonPem (.ok [⟨"k1", "RSA", .error "illegal base64 data", .ok [], .ok [], .ok [], .ok []⟩])

/-- A JWKS anchor carrying one good symmetric key. -/
def c2OctAnchor : Anchor :=
  .nonPem (.ok [⟨"k2", "oct", .ok [], .ok [], .ok [115], .ok [], .ok []⟩])

/-- A policy response with status 500 whose body decodes to allow true. -/
def c3Env : OpaEnv :=
  ⟨.resp 500 (.ok [120]), fun _ => .ok [("allow", [116])], fun _ => .ok true⟩

/-- A token with an unknown algorithm and an unsupported critical header. -/
def c4Token : JSONWebToken := ⟨[], [], ⟨"NONE", "", "", "", ["foo"]⟩, []⟩

/-- Primitives under which every RSA-PKCS1v15 check passes. -/
def c5Ops : CryptoOps :=
  ⟨fun _ b => b, fun _ k m => k ++ m,
   fun _ _ _ _ => true, fun _ _ _ _ => false, fun _ _ _ _ => false⟩

/-- A table holding a symmetric key and an RSA pointer key. -/
def c5Keys : KeyTable := [("a", .symmetric []), ("b", .rsaPtr ⟨1, 1⟩)]

/-- An RS256 token whose kid is not in the table. -/
def c5Token : JSONWebToken := ⟨[1], [2], ⟨"RS256", "zzz", "", "", []⟩, []⟩

/-- A fixed decoded header used by the C6 witness. -/
def c6Header : JWTHeader := ⟨"HS256", "", "", "", []⟩

/-- The symmetric secret of the C7 scenario. -/
def c7Secret : Bytes := strBytes ['s', 'e', 'c', 'r', 'e', 't']

/-- The table of the C7 scenario: the empty-string identifier to the secret. -/
def c7Keys : KeyTable := [("", .symmetric c7Secret)]

/-- The signing input of the C7 compact token: the base64url encoding of
the HS256 header, a period, the base64url encoding of the alice payload. -/
def c7Plaintext : Bytes := strBytes "eyJhbGciOiJIUzI1NiJ9.eyJzdWIiOiJhbGljZSJ9".data

/-- The C7 token: HS256, no kid (the empty string after unmarshalling), the
alice payload, signed by the HMAC of the signing input under the secret. -/
def c7Token (ops : CryptoOps) : JSONWebToken :=
  ⟨c7Plaintext, ops.hmacSum .sha256 c7Secret c7Plaintext,
   ⟨"HS256", "", "", "", []⟩, [("sub", .str "alice")]⟩

section Helpers

variable {α : Type}

theorem take_len_append (l1 l2 : List α) (n : Nat) :
    (l1 ++ l2).take (l1.length + n) = l1 ++ l2.take n := by
  induction l1 with
  | nil => simp
  | cons a l ih => simp [List.length_cons, Nat.succ_add, ih]

theorem take_len_exact (l1 l2 : List α) : (l1 ++ l2).take l1.length = l1 := by
  simp

theorem drop_len_append (l1 l2 : List α) : (l1 ++ l2).drop l1.length = l2 := by
  induction l1 with
  | nil => simp
  | cons a l ih => simp [ih]

end Helpers

theorem resolveAnchor_nonPem_failed (keys : KeyTable) (f : JwksFetch)
    (hf : f.failed = true) : resolveAnchor keys (.nonPem f) = .ok keys := by
  cases f
  case ok entries => simp [JwksFetch.failed] at hf
  all_goals rfl

theorem mem_insertKey {t : KeyTable} {kid : String} {v : KeyMaterial}
    {p : String × KeyMaterial} (hp : p ∈ t.insertKey kid v) : p ∈ t ∨ p = (kid, v) := by
  unfold KeyTable.insertKey at hp
  split at hp
  · obtain ⟨q, hq, hpe⟩ := List.mem_map.mp hp
    by_cases hqk : q.1 == kid
    · rw [if_pos hqk] at hpe
      right
      exact hpe.symm
    · rw [if_neg hqk] at hpe
      left
      exact hpe ▸ hq
  · rcases List.mem_append.mp hp with h | h
    · left
      exact h
    · right
      simpa using h

theorem verifyRSAPSS_value_key (ops : CryptoOps) (key : KeyMaterial) (hash : HashAlg)
    (digest signature : Bytes) (h : key.nonPointer = true) :
    verifyRSAPSS ops key hash digest signature = .err "incorrect public key type" := by
  cases key
  case rsaPtr k => simp [KeyMaterial.nonPointer] at h
  all_goals rfl

theorem verifyECDSA_value_key (ops : CryptoOps) (key : KeyMaterial) (hash : HashAlg)
    (digest signature : Bytes) (h : key.nonPointer = true) :
    verifyECDSA ops key hash digest signature = .err "incorrect public key type" := by
  cases key
  case ecPtr k => simp [KeyMaterial.nonPointer] at h
  all_goals rfl

/-- C1: the claim states that the RS256/RS384/RS512 verification function
returns a type-mismatch error on any key material that is not an RSA public
key and never aborts. The source instead performs a bare type assertion
(jwt.go:441), which panics at run time on incompatible key material: the
claim matches the intent shown by the sibling verifiers, the code is the
slip. The theorem evaluates the embedded function: on every key that is not
a pointer RSA key it aborts with a panic, which is never an error return. -/
theorem c1_rsapkcs_nonrsa_panics :
    (∀ (ops : CryptoOps) (key : KeyMaterial) (hash : HashAlg) (digest signature : Bytes),
      key.isRsaPtr = false →
      verifyRSAPKCS ops key hash digest signature = .panic "interface conversion") ∧
    (∀ m, VerifyResult.panic "interface conversion" ≠ VerifyResult.err m) := by
  constructor
  · intro ops key hash digest signature h
    cases key
    case rsaPtr k => simp [KeyMaterial.isRsaPtr] at h
    all_goals rfl
  · intro m h
    exact VerifyResult.noConfusion h

/-- Witness for C1: a symmetric secret reached by the try-every-key
fallback makes the RS-family verifier panic instead of erroring. -/
theorem c1_rsapkcs_nonrsa_panics_witness :
    verifyRSAPKCS trivOps (.symmetric (strBytes ['s', 'e', 'c', 'r', 'e', 't'])) .sha256 [] [] =
      .panic "interface conversion" :=
  c1_rsapkcs_nonrsa_panics.1 trivOps _ _ _ [] (by rfl)

theorem resolveAnchors_append (l1 l2 : List Anchor) (keys : KeyTable) :
    resolveAnchors keys (l1 ++ l2) =
      (match resolveAnchors keys l1 with
       | .error m => .error m
       | .ok keys2 => resolveAnchors keys2 l2) := by
  induction l1 generalizing keys with
  | nil => simp [resolveAnchors]
  | cons a rest ih =>
    simp only [List.cons_append, resolveAnchors]
    cases resolveAnchor keys a with
    | error m => rfl
    | ok keys2 => exact ih keys2

theorem resolveJwksEntries_other_kty (keys : KeyTable) (entry : JWKEntry)
    (rest : List JWKEntry) (hR : entry.kty ≠ "RSA") (hE : entry.kty ≠ "EC")
    (hO : entry.kty ≠ "oct") :
    resolveJwksEntries keys (entry :: rest) = resolveJwksEntries keys rest := by
  simp only [resolveJwksEntries, hR, hE, hO]

theorem entryDecodeFailure_aborts (keys : KeyTable) (entry : JWKEntry)
    (rest : List JWKEntry) (m : String) (h : entryDecodeFailure entry = some m) :
    resolveJwksEntries keys (entry :: rest) = .error m := by
  obtain ⟨kid, kty, n, e, k, x, y⟩ := entry
  by_cases hR : kty = "RSA"
  · subst hR
    cases n with
    | error m2 =>
      simp [entryDecodeFailure] at h
      subst h
      rfl
    | ok nB =>
      cases e with
      | error m2 =>
        simp [entryDecodeFailure] at h
        subst h
        rfl
      | ok eB => simp [entryDecodeFailure] at h
  · by_cases hE : kty = "EC"
    · subst hE
      cases x with
      | error m2 =>
        simp [entryDecodeFailure] at h
        subst h
        rfl
      | ok xB =>
        cases y with
        | error m2 =>
          simp [entryDecodeFailure] at h
          subst h
          rfl
        | ok yB => simp [entryDecodeFailure] at h
    · by_cases hO : kty = "oct"
      · subst hO
        cases k with
        | error m2 =>
          simp [entryDecodeFailure] at h
          subst h
          rfl
        | ok kB => simp [entryDecodeFailure] at h
      · simp [entryDecodeFailure, hR, hE, hO] at h

theorem entryDecodeFailure_none_skips (keys : KeyTable) (entry : JWKEntry)
    (rest : List JWKEntry) (h : entryDecodeFailure entry = none) :
    ∃ keys2, resolveJwksEntries keys (entry :: rest) = resolveJwksEntries keys2 rest := by
  obtain ⟨kid, kty, n, e, k, x, y⟩ := entry
  by_cases hR : kty = "RSA"
  · subst hR
    cases n with
    | error m2 => simp [entryDecodeFailure] at h
    | ok nB =>
      cases e with
      | error m2 => simp [entryDecodeFailure] at h
      | ok eB => exact ⟨_, rfl⟩
  · by_cases hE : kty = "EC"
    · subst hE
      cases x with
      | error m2 => simp [entryDecodeFailure] at h
      | ok xB =>
        cases y with
        | error m2 => simp [entryDecodeFailure] at h
        | ok yB => exact ⟨_, rfl⟩
    · by_cases hO : kty = "oct"
      · subst hO
        cases k with
        | error m2 => simp [entryDecodeFailure] at h
        | ok kB => exact ⟨_, rfl⟩
      · exact ⟨keys, resolveJwksEntries_other_kty keys _ rest hR hE hO⟩

theorem resolveJwksEntries_bad_entry (good : List JWKEntry) (bad : JWKEntry)
    (restE : List JWKEntry) (m : String)
    (hgood : ∀ e ∈ good, entryDecodeFailure e = none)
    (hbad : entryDecodeFailure bad = some m) :
    ∀ keys, resolveJwksEntries keys (good ++ bad :: restE) = .error m := by
  induction good with
  | nil => exact fun keys => entryDecodeFailure_aborts keys bad restE m hbad
  | cons g tail ih =>
    intro keys
    obtain ⟨keys2, hskip⟩ := entryDecodeFailure_none_skips keys g (tail ++ bad :: restE)
      (hgood g (List.mem_cons_self _ _))
    rw [List.cons_append, hskip]
    exact ih (fun e he => hgood e (List.mem_cons_of_mem _ he)) keys2

/-- C2 counterexample: the second anchor alone resolves to one key, but a
base64url decode failure in the first anchor aborts the whole resolution
with an error instead of skipping that anchor and keeping the second key. -/
theorem c2_decode_failure_aborts_cex :
    getKeyFromCertOrJWK [c2OctAnchor] = .ok [("k2", .symmetric [115])] ∧
    getKeyFromCertOrJWK [c2BadAnchor, c2OctAnchor] = .error "illegal base64 data" :=
  ⟨rfl, rfl⟩

/-- C2 amended: an unparsable URL, a transport failure, a body read failure
or a JWKS JSON parse failure yields zero keys from that anchor and leaves
the rest of the resolution untouched; but a base64url decode failure of a
key field (n or e for an RSA entry, x or y for an EC entry, k for an oct
entry) aborts the ENTIRE resolution with that error: whatever anchors come
before or after, no table is produced and every other anchor loses its
keys. -/
theorem c2_fetch_failures_swallowed_decode_aborts :
    (∀ (before after : List Anchor) (f : JwksFetch), f.failed = true →
      getKeyFromCertOrJWK (before ++ Anchor.nonPem f :: after) =
        getKeyFromCertOrJWK (before ++ after)) ∧
    (∀ (before after : List Anchor) (keysB : KeyTable) (good : List JWKEntry)
       (bad : JWKEntry) (restE : List JWKEntry) (m : String),
      resolveAnchors [] before = .ok keysB →
      (∀ e ∈ good, entryDecodeFailure e = none) →
      entryDecodeFailure bad = some m →
      getKeyFromCertOrJWK
          (before ++ Anchor.nonPem (.ok (good ++ bad :: restE)) :: after) = .error m) := by
  constructor
  · intro before after f hf
    unfold getKeyFromCertOrJWK
    generalize ([] : KeyTable) = keys
    induction before generalizing keys with
    | nil =>
      simp only [List.nil_append, resolveAnchors, resolveAnchor_nonPem_failed keys f hf]
    | cons a rest ih =>
      simp only [List.cons_append, resolveAnchors]
      cases resolveAnchor keys a with
      | error m => rfl
      | ok keys2 => exact ih keys2
  · intro before after keysB good bad restE m hbefore hgood hbad
    unfold getKeyFromCertOrJWK
    rw [resolveAnchors_append before _ [], hbefore]
    simp only [resolveAnchors, resolveAnchor,
      resolveJwksEntries_bad_entry good bad restE m hgood hbad keysB]

/-- Witness for C2: a transport failure after a good anchor resolves to
the same table as without that anchor, while an anchor whose RSA entry has
an undecodable modulus, placed between two good anchors, makes the whole
resolution return that decode error. -/
theorem c2_fetch_failures_swallowed_decode_aborts_witness :
    getKeyFromCertOrJWK [c2OctAnchor, Anchor.nonPem .getError] =
      getKeyFromCertOrJWK [c2OctAnchor] ∧
    getKeyFromCertOrJWK [c2OctAnchor,
        Anchor.nonPem
          (.ok [⟨"k1", "RSA", .error "illegal base64 data", .ok [], .ok [], .ok [], .ok []⟩]),
        c2OctAnchor] =
      .error "illegal base64 data" :=
  ⟨c2_fetch_failures_swallowed_decode_aborts.1 [c2OctAnchor] [] .getError (by rfl),
   c2_fetch_failures_swallowed_decode_aborts.2 [c2OctAnchor] [c2OctAnchor]
     [("k2", .symmetric [115])] []
     ⟨"k1", "RSA", .error "illegal base64 data", .ok [], .ok [], .ok [], .ok []⟩ []
     "illegal base64 data" (by rfl)
     (by intro e he; exact absurd he (List.not_mem_nil e)) (by rfl)⟩

/-- C3 counterexample: the source never reads the response status code, so
a non-2xx response whose body decodes to a boolean true in the allow field
is allowed, where the claim says it must be a hard failure. -/
theorem c3_non2xx_allowed_cex : CheckOpa c3Env "allow" = .ok () := rfl

/-- C3 amended: the HTTP status of the policy response is never examined;
the decision depends on the body alone, and a response whose body decodes
to true in the allow field allows the request whatever the status was. -/
theorem c3_status_never_checked :
    (∀ (s1 s2 : Nat) (body : Except String Bytes)
       (ur : Bytes → Except String (List (String × Bytes)))
       (ub : Bytes → Except String Bool) (field : String),
      CheckOpa ⟨.resp s1 body, ur, ub⟩ field = CheckOpa ⟨.resp s2 body, ur, ub⟩ field) ∧
    (∀ (s : Nat) (body : Bytes) (result : List (String × Bytes)) (raw : Bytes)
       (ur : Bytes → Except String (List (String × Bytes)))
       (ub : Bytes → Except String Bool) (field : String),
      ur body = .ok result → lookupRaw result field = some raw → ub raw = .ok true →
      CheckOpa ⟨.resp s (.ok body), ur, ub⟩ field = .ok ()) := by
  constructor
  · intro s1 s2 body ur ub field
    rfl
  · intro s body result raw ur ub field hur hraw hub
    simp [CheckOpa, hur, hraw, hub]

/-- Witness for C3 at status 500 with a concrete decoded body. -/
theorem c3_status_never_checked_witness :
    CheckOpa ⟨.resp 500 (.ok [120]), fun _ => .ok [("allow", [116])], fun _ => .ok true⟩
        "allow" = .ok () :=
  c3_status_never_checked.2 500 [120] [("allow", [116])] [116] _ _ "allow"
    (by rfl) (by rfl) (by rfl)

/-- C4 counterexample: a token whose alg is outside the table but which also
carries an unsupported critical header fails with the unsupported-header
error, not the unknown-algorithm error the claim promises for every such
token: the crit check at jwt.go:315 runs before the algorithm lookup. -/
theorem c4_crit_precedes_alg_cex :
    tokenAlgorithms "NONE" = none ∧
    VerifyToken trivOps "" [] c4Token = .err "unsupported header: foo" ∧
    VerifyToken trivOps "" [] c4Token ≠ .err ("unknown JWS algorithm: " ++ "NONE") := by
  refine ⟨rfl, rfl, ?_⟩
  decide

/-- C4 amended: once every critical header is supported, an alg outside the
fixed table fails with the unknown-algorithm error for every key table,
every primitive set and every pinning configuration (a token with an
unsupported critical header fails even earlier with that error instead);
and when an expected algorithm is configured and differs from the token
alg, verification fails with the mismatch error for every key table and
every primitive set, so no key lookup or signature check can influence it. -/
theorem c4_unknown_alg_and_pinning :
    (∀ (ops : CryptoOps) (expectedAlg : String) (keys : KeyTable) (tok : JSONWebToken),
      checkCrit tok.header.crit = none →
      tokenAlgorithms tok.header.alg = none →
      VerifyToken ops expectedAlg keys tok =
        .err ("unknown JWS algorithm: " ++ tok.header.alg)) ∧
    (∀ (ops : CryptoOps) (expectedAlg : String) (keys : KeyTable) (tok : JSONWebToken)
       (a : TokenAlgorithm),
      checkCrit tok.header.crit = none →
      tokenAlgorithms tok.header.alg = some a →
      expectedAlg ≠ "" → tok.header.alg ≠ expectedAlg →
      VerifyToken ops expectedAlg keys tok =
        .err ("incorrect alg, expected " ++ expectedAlg ++ " got " ++ tok.header.alg)) := by
  constructor
  · intro ops expectedAlg keys tok hc ha
    simp [VerifyToken, hc, ha]
  · intro ops expectedAlg keys tok a hc ha h1 h2
    simp [VerifyToken, hc, ha, h1, h2]

/-- Witness for C4: an unlisted alg fails with the unknown-algorithm error,
and an HS256 token under an RS256 pin fails with the mismatch error, both
with a populated key table. -/
theorem c4_unknown_alg_and_pinning_witness :
    VerifyToken trivOps "" [("", .symmetric [1])] ⟨[], [], ⟨"XX", "", "", "", []⟩, []⟩ =
      .err ("unknown JWS algorithm: " ++ "XX") ∧
    VerifyToken trivOps "RS256" [("", .symmetric [1])] ⟨[], [], ⟨"HS256", "", "", "", []⟩, []⟩ =
      .err ("incorrect alg, expected " ++ "RS256" ++ " got " ++ "HS256") :=
  ⟨c4_unknown_alg_and_pinning.1 trivOps "" _ _ (by rfl) (by rfl),
   c4_unknown_alg_and_pinning.2 trivOps "RS256" _ _ ⟨.sha256, verifyHMAC⟩
     (by rfl) (by rfl) (by decide) (by decide)⟩

theorem tryKeys_no_panic (ops : CryptoOps) (a : TokenAlgorithm) (pt sig : Bytes)
    (keys : List (String × KeyMaterial))
    (hnp : ∀ p ∈ keys, (a.verify ops p.2 a.hash pt sig).isPanic = false) :
    (tryKeys ops a pt sig keys = .ok ↔
      ∃ p ∈ keys, a.verify ops p.2 a.hash pt sig = .ok) ∧
    ((¬ ∃ p ∈ keys, a.verify ops p.2 a.hash pt sig = .ok) →
      tryKeys ops a pt sig keys = .err "token validation failed") := by
  induction keys with
  | nil => simp [tryKeys]
  | cons q rest ih =>
    obtain ⟨kid, key⟩ := q
    have hq := hnp (kid, key) (List.mem_cons_self _ _)
    have hrest : ∀ p ∈ rest, (a.verify ops p.2 a.hash pt sig).isPanic = false :=
      fun p hp => hnp p (List.mem_cons_of_mem _ hp)
    obtain ⟨ih1, ih2⟩ := ih hrest
    cases hv : a.verify ops key a.hash pt sig with
    | ok =>
      constructor
      · simp only [tryKeys, hv, true_iff]
        exact ⟨(kid, key), List.mem_cons_self _ _, hv⟩
      · intro hno
        exact absurd ⟨(kid, key), List.mem_cons_self _ _, hv⟩ hno
    | err m =>
      constructor
      · simp only [tryKeys, hv]
        rw [ih1]
        constructor
        · rintro ⟨p, hp, hok⟩
          exact ⟨p, List.mem_cons_of_mem _ hp, hok⟩
        · rintro ⟨p, hp, hok⟩
          rcases List.mem_cons.mp hp with hpe | hpm
          · rw [hpe] at hok
            simp only at hok
            rw [hok] at hv
            exact absurd hv (by simp)
          · exact ⟨p, hpm, hok⟩
      · intro hno
        simp only [tryKeys, hv]
        apply ih2
        rintro ⟨p, hp, hok⟩
        exact hno ⟨p, List.mem_cons_of_mem _ hp, hok⟩
    | panic m =>
      rw [hv] at hq
      simp [VerifyResult.isPanic] at hq

/-- C5 counterexample: the kid is not found, so every key is tried; the RSA
pointer key verifies the signature under these primitives, yet the scan
never reaches it, because the symmetric key makes the RS256 verifier panic
first (jwt.go:441): the fallback does not succeed even though some key in
the table verifies. -/
theorem c5_fallback_panic_cex :
    verifyAsymmetric verifyRSAPKCS c5Ops (.rsaPtr ⟨1, 1⟩) .sha256 [1] [2] = .ok ∧
    c5Keys.lookupKey "zzz" = none ∧
    VerifyToken c5Ops "" c5Keys c5Token = .panic "interface conversion" ∧
    VerifyToken c5Ops "" c5Keys c5Token ≠ .ok := by
  refine ⟨rfl, rfl, rfl, ?_⟩
  decide

/-- C5 amended: when the kid is present in the table, verification runs
against exactly that key and returns its outcome, with no fallback; when
the kid is absent or not found, every key is tried and, provided no try
panics (an RS-family algorithm paired with a non-RSA-pointer key aborts the
scan with a run-time panic), verification succeeds exactly when some key in
the table verifies and otherwise fails with token validation failed. -/
theorem c5_key_selection :
    (∀ (ops : CryptoOps) (expectedAlg : String) (keys : KeyTable) (tok : JSONWebToken)
       (a : TokenAlgorithm) (key : KeyMaterial),
      checkCrit tok.header.crit = none →
      tokenAlgorithms tok.header.alg = some a →
      ¬(expectedAlg ≠ "" ∧ tok.header.alg ≠ expectedAlg) →
      keys.lookupKey tok.header.kid = some key →
      VerifyToken ops expectedAlg keys tok =
        a.verify ops key a.hash tok.plaintext tok.signature) ∧
    (∀ (ops : CryptoOps) (expectedAlg : String) (keys : KeyTable) (tok : JSONWebToken)
       (a : TokenAlgorithm),
      checkCrit tok.header.crit = none →
      tokenAlgorithms tok.header.alg = some a →
      ¬(expectedAlg ≠ "" ∧ tok.header.alg ≠ expectedAlg) →
      keys.lookupKey tok.header.kid = none →
      (∀ p ∈ keys, (a.verify ops p.2 a.hash tok.plaintext tok.signature).isPanic = false) →
      ((VerifyToken ops expectedAlg keys tok = .ok ↔
          ∃ p ∈ keys, a.verify ops p.2 a.hash tok.plaintext tok.signature = .ok) ∧
        ((¬ ∃ p ∈ keys, a.verify ops p.2 a.hash tok.plaintext tok.signature = .ok) →
          VerifyToken ops expectedAlg keys tok = .err "token validation failed"))) := by
  constructor
  · intro ops expectedAlg keys tok a key hc ha hpin hk
    simp [VerifyToken, hc, ha, if_neg hpin, hk]
  · intro ops expectedAlg keys tok a hc ha hpin hk hnp
    have hv : VerifyToken ops expectedAlg keys tok =
        tryKeys ops a tok.plaintext tok.signature keys := by
      simp [VerifyToken, hc, ha, if_neg hpin, hk]
    rw [hv]
    exact tryKeys_no_panic ops a tok.plaintext tok.signature keys hnp

/-- Witness for C5: a kid hit verifies against exactly that key, and with a
missing kid an HS256 token over a one-entry table succeeds exactly when the
single key verifies. -/
theorem c5_key_selection_witness :
    VerifyToken trivOps "" [("k", .symmetric [3])]
        ⟨[5], trivOps.hmacSum .sha256 [3] [5], ⟨"HS256", "k", "", "", []⟩, []⟩ =
      verifyHMAC trivOps (.symmetric [3]) .sha256 [5] (trivOps.hmacSum .sha256 [3] [5]) ∧
    (VerifyToken trivOps "" [("k", .symmetric [3])]
        ⟨[5], trivOps.hmacSum .sha256 [3] [5], ⟨"HS256", "", "", "", []⟩, []⟩ = .ok ↔
      ∃ p ∈ ([("k", KeyMaterial.symmetric [3])] : KeyTable),
        verifyHMAC trivOps p.2 .sha256 [5] (trivOps.hmacSum .sha256 [3] [5]) = .ok) :=
  ⟨c5_key_selection.1 trivOps "" _ _ ⟨.sha256, verifyHMAC⟩ (.symmetric [3])
     (by rfl) (by rfl) (by decide) (by rfl),
   (c5_key_selection.2 trivOps "" _ _ ⟨.sha256, verifyHMAC⟩
     (by rfl) (by rfl) (by decide) (by rfl) (by decide)).1⟩

theorem splitOnDot_no_dot (p : List Char) (hp : '.' ∉ p) : splitOnDot p = [p] := by
  induction p with
  | nil => rfl
  | cons c q ih =>
    have hc : c ≠ '.' := fun h => hp (h ▸ List.mem_cons_self c q)
    have hq : '.' ∉ q := fun h => hp (List.mem_cons_of_mem c h)
    simp only [splitOnDot, if_neg hc, ih hq]

theorem splitOnDot_prepend (p rest : List Char) (hp : '.' ∉ p) :
    splitOnDot (p ++ '.' :: rest) = p :: splitOnDot rest := by
  induction p with
  | nil => simp [splitOnDot]
  | cons c q ih =>
    have hc : c ≠ '.' := fun h => hp (h ▸ List.mem_cons_self c q)
    have hq : '.' ∉ q := fun h => hp (List.mem_cons_of_mem c h)
    simp only [List.cons_append, splitOnDot, if_neg hc]
    rw [List.append_eq, ih hq]

/-- C6: for a well-formed bearer value the parser records the signing input
as exactly the byte range of the original value spanning the first part, a
period and the second part, taken by offsets and independent of the decoded
documents; and verification reads only the plaintext, signature and header
of a token, never its decoded payload, so any two tokens agreeing on those
bytes verify identically whatever payload serialization produced them. -/
theorem c6_signing_input_exact :
    (∀ (decodeB64 : List Char → Except String Bytes)
       (parseHeader : Bytes → Except String JWTHeader)
       (parsePayload : Bytes → Except String PayloadMap)
       (p0 p1 p2 : List Char) (hB pB sB : Bytes) (hdr : JWTHeader) (pay : PayloadMap),
      '.' ∉ p0 → '.' ∉ p1 → '.' ∉ p2 →
      decodeB64 p0 = .ok hB → decodeB64 p1 = .ok pB → decodeB64 p2 = .ok sB →
      parseHeader hB = .ok hdr → parsePayload pB = .ok pay →
      ExtractToken decodeB64 parseHeader parsePayload
          (some (bearerMarker ++ (p0 ++ '.' :: (p1 ++ '.' :: p2)))) =
        .ok (some ⟨strBytes (p0 ++ '.' :: p1), sB, hdr, pay⟩)) ∧
    (∀ (ops : CryptoOps) (expectedAlg : String) (keys : KeyTable) (t1 t2 : JSONWebToken),
      t1.header = t2.header → t1.plaintext = t2.plaintext → t1.signature = t2.signature →
      VerifyToken ops expectedAlg keys t1 = VerifyToken ops expectedAlg keys t2) := by
  constructor
  · intro decodeB64 parseHeader parsePayload p0 p1 p2 hB pB sB hdr pay
      h0 h1 h2 hd0 hd1 hd2 hph hpp
    have hlen7 : bearerMarker.length = 7 := rfl
    have htake : (bearerMarker ++ (p0 ++ '.' :: (p1 ++ '.' :: p2))).take 7 = bearerMarker := by
      rw [← hlen7, take_len_exact]
    have hdrop : (bearerMarker ++ (p0 ++ '.' :: (p1 ++ '.' :: p2))).drop 7 =
        p0 ++ '.' :: (p1 ++ '.' :: p2) := by
      rw [← hlen7, drop_len_append]
    have hsplit : splitOnDot (p0 ++ '.' :: (p1 ++ '.' :: p2)) = [p0, p1, p2] := by
      rw [splitOnDot_prepend p0 _ h0, splitOnDot_prepend p1 _ h1, splitOnDot_no_dot p2 h2]
    have hsig : (p0 ++ '.' :: p1).length = p0.length + p1.length + 1 := by
      simp [List.length_append]
      omega
    have hassoc : p0 ++ '.' :: (p1 ++ '.' :: p2) = (p0 ++ '.' :: p1) ++ ('.' :: p2) := by
      simp
    have hplain : ((bearerMarker ++ (p0 ++ '.' :: (p1 ++ '.' :: p2))).take
        (p0.length + p1.length + 8)).drop 7 = p0 ++ '.' :: p1 := by
      have harith : p0.length + p1.length + 8 =
          bearerMarker.length + (p0.length + p1.length + 1) := by
        rw [hlen7]
        omega
      rw [harith, take_len_append, ← hlen7, drop_len_append, hassoc, ← hsig, take_len_exact]
    simp only [ExtractToken, if_pos htake, hdrop, hsplit, hd0, hd1, hd2, hph, hpp, hplain]
  · intro ops expectedAlg keys t1 t2 hh hp hs
    unfold VerifyToken
    rw [hh, hp, hs]

/-- Witness for C6: a concrete three-part bearer value parses with the
plaintext equal to the byte range of the first two parts and the separating
period, and two concrete tokens differing only in payload verify alike. -/
theorem c6_signing_input_exact_witness :
    ExtractToken (fun cs => .ok (strBytes cs)) (fun _ => .ok c6Header) (fun _ => .ok [])
        (some (bearerMarker ++ (['a'] ++ '.' :: (['b'] ++ '.' :: ['c'])))) =
      .ok (some ⟨strBytes (['a'] ++ '.' :: ['b']), strBytes ['c'], c6Header, []⟩) ∧
    VerifyToken trivOps "" [] ⟨[1], [2], c6Header, [("x", Json.null)]⟩ =
      VerifyToken trivOps "" [] ⟨[1], [2], c6Header, []⟩ :=
  ⟨c6_signing_input_exact.1 _ _ _ ['a'] ['b'] ['c'] _ _ _ c6Header []
     (by decide) (by decide) (by decide) (by rfl) (by rfl) (by rfl) (by rfl) (by rfl),
   c6_signing_input_exact.2 trivOps "" [] _ _ (by rfl) (by rfl) (by rfl)⟩

/-- C7 counterexample: the token has no kid, but the empty string the kid
unmarshals to IS an identifier of the table, so the lookup at jwt.go:328
hits and the try-every-key fallback branch is not taken, where the claim
says the success happens via the fallback path. -/
theorem c7_not_fallback_cex :
    c7Keys.lookupKey "" = some (.symmetric c7Secret) ∧
    usesFallback c7Keys (c7Token trivOps) = false :=
  ⟨rfl, rfl⟩

/-- C7 amended: verification of the scenario token against the table does
succeed for every choice of primitives, but via the single-key kid-lookup
path: the absent kid is the empty string, which is found in the table, so
exactly that key is checked and the fallback is not used. -/
theorem c7_hs256_succeeds_single_key :
    ∀ ops : CryptoOps,
      VerifyToken ops "" c7Keys (c7Token ops) = .ok ∧
      usesFallback c7Keys (c7Token ops) = false := by
  intro ops
  constructor
  · simp [VerifyToken, c7Token, c7Keys, checkCrit, supportedHeaderNames, tokenAlgorithms,
      KeyTable.lookupKey, verifyHMAC]
  · rfl

/-- Witness for C7 at the concrete primitives. -/
theorem c7_hs256_succeeds_single_key_witness :
    VerifyToken trivOps "" c7Keys (c7Token trivOps) = .ok ∧
    usesFallback c7Keys (c7Token trivOps) = false :=
  c7_hs256_succeeds_single_key trivOps

/-- C8: with an empty key table the verification stage is skipped outright
(jwt.go:240 guards it on a populated table): whatever alg and signature a
parsed token carries, the outcome is decided by the required-field check
and the policy stage alone, and whenever those two accept, the request goes
through. -/
theorem c8_empty_table_skips_verification :
    ∀ (ops : CryptoOps) (decodeB64 : List Char → Except String Bytes)
      (parseHeader : Bytes → Except String JWTHeader)
      (parsePayload : Bytes → Except String PayloadMap)
      (cfg : PluginConfig) (env : OpaEnv) (req : Request) (tok : JSONWebToken),
      cfg.keys = [] →
      ExtractToken decodeB64 parseHeader parsePayload req.authorization = .ok (some tok) →
      (((checkPayloadFields cfg.payloadFields cfg.required tok.payload
            req.remoteAddr req.url).1 = .ok () →
        (cfg.opaUrl = "" ∨ CheckOpa env cfg.opaAllowField = .ok ()) →
        (CheckToken ops decodeB64 parseHeader parsePayload cfg env req).1 = .ok) ∧
       (∀ e, (CheckToken ops decodeB64 parseHeader parsePayload cfg env req).1 = .err e →
        (checkPayloadFields cfg.payloadFields cfg.required tok.payload
            req.remoteAddr req.url).1 = .error e ∨
        CheckOpa env cfg.opaAllowField = .error e)) := by
  intro ops decodeB64 parseHeader parsePayload cfg env req tok hkeys hext
  have hct : CheckToken ops decodeB64 parseHeader parsePayload cfg env req =
      (match checkPayloadFields cfg.payloadFields cfg.required tok.payload
          req.remoteAddr req.url with
       | (.error e, logs) => (.err e, logs)
       | (.ok _, logs) =>
         if cfg.opaUrl = "" then (.ok, logs)
         else
           match CheckOpa env cfg.opaAllowField with
           | .ok _ => (.ok, logs)
           | .error e => (.err e, logs)) := by
    simp only [CheckToken, hext, hkeys, List.length_nil, gt_iff_lt, Nat.lt_irrefl, if_false]
    rcases hcp : checkPayloadFields cfg.payloadFields cfg.required tok.payload
        req.remoteAddr req.url with ⟨r, logs⟩
    cases r with
    | error e => rfl
    | ok u => rfl
  rcases hcp : checkPayloadFields cfg.payloadFields cfg.required tok.payload
      req.remoteAddr req.url with ⟨r, logs⟩
  constructor
  · intro hok hopa
    have hr : r = Except.ok () := hok
    subst hr
    rw [hct, hcp]
    rcases hopa with hurl | hallow
    · simp [hurl]
    · by_cases hurl : cfg.opaUrl = ""
      · simp [hurl]
      · simp [hurl, hallow]
  · intro e he
    rw [hct, hcp] at he
    cases r with
    | error m =>
      left
      simp only at he ⊢
      rw [show m = e from by cases he; rfl]
    | ok u =>
      right
      simp only at he
      by_cases hurl : cfg.opaUrl = ""
      · rw [if_pos hurl] at he
        cases he
      · rw [if_neg hurl] at he
        cases hco : CheckOpa env cfg.opaAllowField with
        | ok v => rw [hco] at he; cases he
        | error m => rw [hco] at he; cases he; rfl

/-- Witness for C8: a token with a garbage alg and junk signature passes
when the key table is empty, no fields are required and no policy endpoint
is configured. -/
theorem c8_empty_table_skips_verification_witness :
    (CheckToken trivOps (fun _ => .ok [5]) (fun _ => .ok ⟨"garbage", "", "", "", []⟩)
        (fun _ => .ok []) ⟨"", "", [], false, [], "", "", ""⟩
        ⟨.netErr "down", fun _ => .error "x", fun _ => .error "x"⟩
        ⟨some (bearerMarker ++ (['a'] ++ '.' :: (['b'] ++ '.' :: ['c']))), "addr", "u"⟩).1 =
      .ok :=
  ((c8_empty_table_skips_verification trivOps _ _ _ _ _ _
      ⟨strBytes (['a'] ++ '.' :: ['b']), [5], ⟨"garbage", "", "", "", []⟩, []⟩
      (by rfl) (by rfl)).1 (by rfl) (Or.inl (by rfl)))

/-- C9: the required-field loop with requireAll set fails at the first
configured field (in list order) absent from the payload, naming it in the
error and printing nothing; with requireAll unset it never fails and prints
one advisory entry per missing field, each carrying the rendered sub claim,
the caller address and the request URL, while checking every field. -/
theorem c9_claim_checker :
    ∀ (fields : List String) (payload : PayloadMap) (remoteAddr url : String),
      checkPayloadFields fields true payload remoteAddr url =
        (match fields.find? (fun f => (payloadLookup payload f).isNone) with
         | some f => (.error ("payload missing required field " ++ f), [])
         | none => (.ok (), [])) ∧
      checkPayloadFields fields false payload remoteAddr url =
        (.ok (),
         (fields.filter (fun f => (payloadLookup payload f).isNone)).map
           (fun f => mkLogEvent f payload remoteAddr url)) := by
  intro fields payload remoteAddr url
  induction fields with
  | nil => exact ⟨rfl, rfl⟩
  | cons f rest ih =>
    constructor
    · cases hf : payloadLookup payload f with
      | none =>
        simp only [checkPayloadFields, hf, Option.isSome_none, Bool.false_eq_true, if_false,
          if_true, List.find?_cons, Option.isNone_none]
      | some v =>
        simp only [checkPayloadFields, hf, Option.isSome_some, if_true, List.find?_cons,
          Option.isNone_some, ih.1]
    · cases hf : payloadLookup payload f with
      | none =>
        simp only [checkPayloadFields, hf, Option.isSome_none, Bool.false_eq_true, if_false,
          List.filter_cons, Option.isNone_none, if_true, List.map_cons, ih.2]
      | some v =>
        simp only [checkPayloadFields, hf, Option.isSome_some, if_true, List.filter_cons,
          Option.isNone_some, Bool.false_eq_true, if_false, ih.2]

/-- Witness for C9 at the scenario of the specification: required fields
sub and role, requireAll set, payload holding only sub: the check fails
naming role; with requireAll unset it passes and prints one entry for role
carrying the sub claim, the address and the URL. -/
theorem c9_claim_checker_witness :
    checkPayloadFields ["sub", "role"] true [("sub", Json.str "alice")] "addr" "u" =
      (.error ("payload missing required field " ++ "role"), []) ∧
    checkPayloadFields ["sub", "role"] false [("sub", Json.str "alice")] "addr" "u" =
      (.ok (), [⟨"warning", "Missing JWT field " ++ "role", "alice", "addr", "u"⟩]) := by
  have h := c9_claim_checker ["sub", "role"] [("sub", Json.str "alice")] "addr" "u"
  constructor
  · rw [h.1]
    rfl
  · rw [h.2]
    rfl

theorem VerifyToken_kid_hit (ops : CryptoOps) (expectedAlg : String) (keys : KeyTable)
    (tok : JSONWebToken) (a : TokenAlgorithm) (key : KeyMaterial)
    (hc : checkCrit tok.header.crit = none)
    (ha : tokenAlgorithms tok.header.alg = some a)
    (hpin : ¬(expectedAlg ≠ "" ∧ tok.header.alg ≠ expectedAlg))
    (hk : keys.lookupKey tok.header.kid = some key) :
    VerifyToken ops expectedAlg keys tok =
      a.verify ops key a.hash tok.plaintext tok.signature := by
  simp [VerifyToken, hc, ha, if_neg hpin, hk]

/-- C10: every entry a JWKS anchor adds to the table is a raw byte string
or a VALUE struct (jwt.go:191 and jwt.go:203 store non-pointer keys), the
PS-family and ES-family verifiers reject everything but POINTER keys with
the incorrect-public-key-type error, and consequently a token whose alg is
in the PS or ES families, resolved by kid to such a JWKS-produced key,
always fails verification with that error: the key can validate nothing. -/
theorem c10_jwks_keys_unusable_ps_es :
    (∀ (keys : KeyTable) (entries : List JWKEntry) (res : KeyTable),
      resolveJwksEntries keys entries = .ok res →
      ∀ p ∈ res, p ∈ keys ∨ (p.2).nonPointer = true) ∧
    (∀ (ops : CryptoOps) (key : KeyMaterial) (hash : HashAlg) (digest signature : Bytes),
      key.nonPointer = true →
      verifyRSAPSS ops key hash digest signature = .err "incorrect public key type" ∧
      verifyECDSA ops key hash digest signature = .err "incorrect public key type") ∧
    (∀ (ops : CryptoOps) (expectedAlg : String) (keys : KeyTable) (tok : JSONWebToken)
       (key : KeyMaterial),
      tok.header.alg ∈ (["PS256", "PS384", "PS512", "ES256", "ES384", "ES512"] : List String) →
      checkCrit tok.header.crit = none →
      ¬(expectedAlg ≠ "" ∧ tok.header.alg ≠ expectedAlg) →
      keys.lookupKey tok.header.kid = some key →
      key.nonPointer = true →
      VerifyToken ops expectedAlg keys tok = .err "incorrect public key type") := by
  refine ⟨?_, ?_, ?_⟩
  · intro keys entries
    induction entries generalizing keys with
    | nil =>
      intro res hres p hp
      cases hres
      exact Or.inl hp
    | cons entry rest ih =>
      intro res hres p hp
      obtain ⟨kid, kty, n, e, k, x, y⟩ := entry
      have step : ∀ {m : KeyMaterial},
          resolveJwksEntries (keys.insertKey kid m) rest = .ok res →
          m.nonPointer = true →
          p ∈ keys ∨ (p.2).nonPointer = true := by
        intro m hrec hm
        rcases ih (keys.insertKey kid m) res hrec p hp with hin | hnp
        · rcases mem_insertKey hin with hold | hnew
          · exact Or.inl hold
          · right
            rw [hnew]
            exact hm
        · exact Or.inr hnp
      simp only [resolveJwksEntries] at hres
      split at hres
      · split at hres
        · exact absurd hres (by simp)
        · split at hres
          · exact absurd hres (by simp)
          · exact step hres rfl
      · split at hres
        · exact absurd hres (by simp)
        · split at hres
          · exact absurd hres (by simp)
          · exact step hres rfl
      · split at hres
        · exact absurd hres (by simp)
        · exact step hres rfl
      · exact ih keys res hres p hp
  · intro ops key hash digest signature h
    exact ⟨verifyRSAPSS_value_key ops key hash digest signature h,
           verifyECDSA_value_key ops key hash digest signature h⟩
  · intro ops expectedAlg keys tok key halg hc hpin hk hkey
    rcases List.mem_cons.mp halg with h | halg
    · rw [VerifyToken_kid_hit ops expectedAlg keys tok
        ⟨.sha256, verifyAsymmetric verifyRSAPSS⟩ key hc (by rw [h]; rfl) hpin hk]
      exact verifyRSAPSS_value_key ops key .sha256
        (ops.hashSum .sha256 tok.plaintext) tok.signature hkey
    rcases List.mem_cons.mp halg with h | halg
    · rw [VerifyToken_kid_hit ops expectedAlg keys tok
        ⟨.sha384, verifyAsymmetric verifyRSAPSS⟩ key hc (by rw [h]; rfl) hpin hk]
      exact verifyRSAPSS_value_key ops key .sha384
        (ops.hashSum .sha384 tok.plaintext) tok.signature hkey
    rcases List.mem_cons.mp halg with h | halg
    · rw [VerifyToken_kid_hit ops expectedAlg keys tok
        ⟨.sha512, verifyAsymmetric verifyRSAPSS⟩ key hc (by rw [h]; rfl) hpin hk]
      exact verifyRSAPSS_value_key ops key .sha512
        (ops.hashSum .sha512 tok.plaintext) tok.signature hkey
    rcases List.mem_cons.mp halg with h | halg
    · rw [VerifyToken_kid_hit ops expectedAlg keys tok
        ⟨.sha256, verifyAsymmetric verifyECDSA⟩ key hc (by rw [h]; rfl) hpin hk]
      exact verifyECDSA_value_key ops key .sha256
        (ops.hashSum .sha256 tok.plaintext) tok.signature hkey
    rcases List.mem_cons.mp halg with h | halg
    · rw [VerifyToken_kid_hit ops expectedAlg keys tok
        ⟨.sha384, verifyAsymmetric verifyECDSA⟩ key hc (by rw [h]; rfl) hpin hk]
      exact verifyECDSA_value_key ops key .sha384
        (ops.hashSum .sha384 tok.plaintext) tok.signature hkey
    rcases List.mem_cons.mp halg with h | halg
    · rw [VerifyToken_kid_hit ops expectedAlg keys tok
        ⟨.sha512, verifyAsymmetric verifyECDSA⟩ key hc (by rw [h]; rfl) hpin hk]
      exact verifyECDSA_value_key ops key .sha512
        (ops.hashSum .sha512 tok.plaintext) tok.signature hkey
    exact absurd halg (by simp)

/-- Witness for C10: a JWKS RSA entry resolves to a value struct, and a
PS256 token whose kid selects it fails with the key-type error. -/
theorem c10_jwks_keys_unusable_ps_es_witness :
    (("w", KeyMaterial.rsaVal ⟨1, 1⟩) ∈ ([] : KeyTable) ∨
      (KeyMaterial.rsaVal ⟨1, 1⟩).nonPointer = true) ∧
    verifyRSAPSS trivOps (.rsaVal ⟨1, 1⟩) .sha256 [] [] = .err "incorrect public key type" ∧
    VerifyToken trivOps "" [("w", .rsaVal ⟨1, 1⟩)] ⟨[], [], ⟨"PS256", "w", "", "", []⟩, []⟩ =
      .err "incorrect public key type" :=
  ⟨c10_jwks_keys_unusable_ps_es.1 []
      [⟨"w", "RSA", .ok [1], .ok [1], .ok [], .ok [], .ok []⟩] _ (by rfl)
      ("w", KeyMaterial.rsaVal ⟨1, 1⟩) (by decide),
   (c10_jwks_keys_unusable_ps_es.2.1 trivOps (.rsaVal ⟨1, 1⟩) .sha256 [] [] (by rfl)).1,
   c10_jwks_keys_unusable_ps_es.2.2 trivOps "" _ _ (.rsaVal ⟨1, 1⟩)
     (by decide) (by rfl) (by decide) (by rfl) (by rfl)⟩

end Jwt
